import Mathlib

/-
Verification development for the Weatherly backend (Express server for
push weather notifications).  The JavaScript source is shallowly embedded:
JS strings are `String`/`List Char`, `Date` values are a `DateTime` record,
the MongoDB subscriptions collection is a `List Subscription`, and the two
black-box collaborators (the web-push transport and the upstream weather
API) are oracle functions supplied as parameters.  Asynchronous awaited
sequences are embedded as sequential state passing on a `PushState`
(store contents plus a trace of attempted push deliveries).
-/

namespace Weatherly

/-! ## JavaScript string primitives -/

/-- Whitespace class used by the JS regex `\s` and `String.trim`
(ASCII portion; the proofs are generic in this predicate). -/
def isWs (c : Char) : Bool :=
  c = ' ' || c = '\t' || c = '\n' || c = '\r' || c = '\x0b' || c = '\x0c'

/-- Auxiliary for `splitComma`: accumulates the current field (reversed). -/
def splitCommaAux : List Char → List Char → List (List Char)
  | [], acc => [acc.reverse]
  | c :: rest, acc =>
    if c = ',' then acc.reverse :: splitCommaAux rest []
    else splitCommaAux rest (c :: acc)

/-- JS `location.split(',')`: always returns at least one field;
`"".split(',') = [""]`. -/
def splitComma (s : String) : List String :=
  (splitCommaAux s.data []).map String.mk

/-- JS `String.prototype.trim`: strip leading and trailing whitespace. -/
def jsTrim (s : String) : String :=
  String.mk (((s.data.dropWhile isWs).reverse.dropWhile isWs).reverse)

/-! ## The location normalization `location.replace(/\s*,\s*/g, ',')`

The regex scan is embedded directly: at each position, if `\s*,\s*`
matches (i.e. skipping whitespace from here reaches a comma), the whole
match — leading whitespace, the comma, and greedily all trailing
whitespace — is replaced by a single `','` and scanning resumes after it;
otherwise the character is copied and the scan advances one position.
The recursion consumes at least one character per step, so a fuel of the
input length suffices; fuel keeps the definition structurally recursive
(hence evaluable by `decide`). -/

/-- One global-replace scan of `\s*,\s*` by `','`, fuel-indexed. -/
def replaceAux : Nat → List Char → List Char
  | 0, l => l
  | _ + 1, [] => []
  | f + 1, c :: rest =>
    match (c :: rest).dropWhile isWs with
    | d :: r =>
      if d = ',' then ',' :: replaceAux f (r.dropWhile isWs)
      else c :: replaceAux f rest
    | [] => c :: replaceAux f rest

/-- Does `\s*,\s*` match at the start of `l` (whitespace-skipping reaches
a comma)?  Analysis helper for the normalization scan. -/
def wsComma (l : List Char) : Bool :=
  match l.dropWhile isWs with
  | d :: _ => d = ','
  | [] => false

/-- `l.replace(/\s*,\s*/g, ',')` on character lists. -/
def replaceWsComma (l : List Char) : List Char :=
  replaceAux l.length l

/-- `const normalizedLocation = location.replace(/\s*,\s*/g, ',')`
(server.js, subscribe handler). -/
def normalizedLocation (s : String) : String :=
  String.mk (replaceWsComma s.data)

/-! ## Dates

A JS `Date` is embedded as calendar day plus wall-clock components.
`setHours(h, 0, 0, 0)` with `h ≥ 24` rolls over into following days. -/

/-- Wall-clock instant: day index plus hour/minute/second/millisecond. -/
structure DateTime where
  day : Nat
  hour : Nat
  minute : Nat
  second : Nat
  ms : Nat
deriving DecidableEq, Repr

/-- `calculateNextNotificationTime(now)` (server.js lines 201–206):
`next.setHours(next.getHours() + (2 - (next.getHours() % 1)), 0, 0, 0)`.
Since `hours % 1` is always `0`, this adds two hours and zeroes the
sub-hour components; `setHours` semantics carry overflow into `day`. -/
def calculateNextNotificationTime (now : DateTime) : DateTime :=
  let h := now.hour + (2 - now.hour % 1)
  { day := now.day + h / 24, hour := h % 24, minute := 0, second := 0, ms := 0 }

/-- Modelled from the spec (§4.5): the earliest boundary of the 2-hour
grid strictly after `now`, sub-hour components zero.  Stated for
comparison with `calculateNextNotificationTime`. -/
def specNextIntervalBoundary (now : DateTime) : DateTime :=
  let h := 2 * (now.hour / 2) + 2
  { day := now.day + h / 24, hour := h % 24, minute := 0, second := 0, ms := 0 }

/-! ## Subscription store

The MongoDB `subscriptions` collection is embedded as a list of records;
`updateOne`/`deleteOne` act on the first matching record (under the
endpoint-uniqueness invariant at most one record matches). -/

/-- A stored subscription record (the fields written by the server). -/
structure Subscription where
  endpoint : String
  keys : String
  location : String
  createdAt : DateTime
  lastNotified : Option DateTime
  nextNotificationTime : DateTime
deriving DecidableEq, Repr

/-- The endpoint keys of a store, in record order. -/
def endpoints (store : List Subscription) : List String :=
  store.map (fun s => s.endpoint)

/-- `updateOne({endpoint: doc.endpoint}, {$set: doc}, {upsert: true})`
(subscribe handler, lines 154–159): replace the first record with the
same endpoint, or append the new record; `$set` writes every field. -/
def updateOneUpsert : List Subscription → Subscription → List Subscription
  | [], doc => [doc]
  | s :: rest, doc =>
    if s.endpoint == doc.endpoint then doc :: rest
    else s :: updateOneUpsert rest doc

/-- `deleteOne({endpoint})`: removes the first matching record;
the boolean is `deletedCount > 0`. -/
def deleteOne : List Subscription → String → List Subscription × Bool
  | [], _ => ([], false)
  | s :: rest, ep =>
    if s.endpoint == ep then (rest, true)
    else
      let (rest2, b) := deleteOne rest ep
      (s :: rest2, b)

/-- `findOne({endpoint})`. -/
def findByEndpoint (store : List Subscription) (ep : String) : Option Subscription :=
  store.find? (fun s => s.endpoint == ep)

/-- `find({location}).toArray()`. -/
def findByLocation (store : List Subscription) (loc : String) : List Subscription :=
  store.filter (fun s => s.location == loc)

/-- `updateMany({location}, {$set: {lastNotified, nextNotificationTime}})`
(lines 327–331). -/
def updateManyTimestamps (store : List Subscription) (loc : String) (now : DateTime) :
    List Subscription :=
  store.map (fun s =>
    if s.location == loc then
      { s with lastNotified := some now,
               nextNotificationTime := calculateNextNotificationTime now }
    else s)

/-! ## Push transport -/

/-- Outcome reported by `webpush.sendNotification` for one delivery:
resolution, or rejection carrying an HTTP status code. -/
inductive PushResult where
  | ok
  | err (statusCode : Nat)
deriving DecidableEq, Repr

/-- The permanent-failure test `err.statusCode === 410 || err.statusCode === 404`. -/
def isGoneOr404 : PushResult → Bool
  | .ok => false
  | .err c => c == 410 || c == 404

/-- One entry of the `Promise.allSettled` outcome array. -/
inductive Settled where
  | fulfilled
  | rejected (statusCode : Nat)
deriving DecidableEq, Repr

/-- How a single delivery outcome appears in the settled array
(the per-subscriber `catch` rethrows, so errors settle as rejections). -/
def settledOf : PushResult → Settled
  | .ok => .fulfilled
  | .err c => .rejected c

/-- The `data` bag of a weather notification payload. -/
structure PayloadData where
  type : String
  location : String
  time : String
deriving DecidableEq, Repr

/-- A notification payload as built by the server. -/
structure Payload where
  title : String
  body : String
  icon : String
  data : Option PayloadData := none
deriving DecidableEq, Repr

/-! ## Weather gateway -/

/-- `condition` object of an hourly forecast entry. -/
structure WCondition where
  text : String
  icon : String
deriving DecidableEq, Repr

/-- One hourly forecast entry.  Numeric JSON fields are embedded as their
rendered strings, since the server only ever interpolates them into
notification text. -/
structure HourData where
  time : String
  temp_c : String
  condition : WCondition
  cloud : String
  chance_of_rain : String
  wind_kph : String
  wind_dir : String
  uv : String
deriving DecidableEq, Repr

/-- Outcome of the internal `GET /api/weather/city` request:
an HTTP error, or a body whose `forecast.forecastday[0].hour` array is
the given list. -/
inductive ApiResult where
  | apiError
  | apiOk (hours : List HourData)
deriving DecidableEq, Repr

/-- Outcome of `fetchWeatherData`: a `TypeError` thrown while
destructuring/trimming the location parts, an upstream HTTP failure,
or the hourly forecast array. -/
inductive FetchOutcome where
  | typeError
  | httpError
  | ok (hours : List HourData)
deriving DecidableEq, Repr

/-- The black-box collaborators, supplied as oracles: the push transport
(by endpoint and payload), `toLocaleTimeString` rendering, and the
upstream weather API (by trimmed city/region/country). -/
structure Env where
  push : String → Payload → PushResult
  fmtTime : String → String
  api : String → String → String → ApiResult

/-- `fetchWeatherData(location)` (lines 244–262):
`const [city, region, country] = location.split(',')` followed by
`city.trim(), region.trim(), country.trim()` in the request parameters.
When the location has fewer than three comma-separated parts, `region`
or `country` is `undefined` and `.trim()` throws a `TypeError` before
any request is issued. -/
def fetchWeatherData (env : Env) (location : String) : FetchOutcome :=
  let parts := splitComma location
  match parts.get? 1, parts.get? 2 with
  | some region, some country =>
    match env.api (jsTrim (parts.headD "")) (jsTrim region) (jsTrim country) with
    | .apiError => .httpError
    | .apiOk hours => .ok hours
  | _, _ => .typeError

/-! ## Delivery pipeline -/

/-- Observable server state: the subscriptions collection plus a trace of
attempted push deliveries (endpoint, payload), in attempt order. -/
structure PushState where
  store : List Subscription
  log : List (String × Payload)
deriving DecidableEq, Repr

/-- One `webpush.sendNotification(·, payload)` call: records the attempt
in the trace and returns the transport's outcome. -/
def attemptPush (env : Env) (st : PushState) (ep : String) (payload : Payload) :
    PushState × PushResult :=
  ({ st with log := st.log ++ [(ep, payload)] }, env.push ep payload)

/-- `sendNotification(subscription, payload)` (lines 264–274): on a
410/404 delivery error the record is deleted before `false` is returned;
any other error returns `false` without deleting; success returns `true`. -/
def sendNotification (env : Env) (st : PushState) (ep : String) (payload : Payload) :
    PushState × Bool :=
  let (st1, r) := attemptPush env st ep payload
  match r with
  | .ok => (st1, true)
  | .err c =>
    (if c == 410 || c == 404 then { st1 with store := (deleteOne st1.store ep).1 }
     else st1, false)

/-- The fan-out of `sendBatchNotifications`: one delivery per subscriber,
each with its own `catch` that deletes the record on 410/404 and rethrows
(so the deletion completes before that promise settles).  Concurrent
deliveries touch distinct endpoints, so they are embedded sequentially. -/
def sendBatchAux (env : Env) (payload : Payload) :
    List Subscription → PushState → PushState × List Settled
  | [], st => (st, [])
  | sub :: rest, st =>
    let (st1, r) := attemptPush env st sub.endpoint payload
    let st2 :=
      if isGoneOr404 r then { st1 with store := (deleteOne st1.store sub.endpoint).1 }
      else st1
    let (st3, rs) := sendBatchAux env payload rest st2
    (st3, settledOf r :: rs)

/-- `sendBatchNotifications(subscribers, payload)` (lines 334–355):
returns `undefined` (`none`) when the subscriber list is empty, otherwise
the `Promise.allSettled` outcome array, one entry per subscriber. -/
def sendBatchNotifications (env : Env) (subs : List Subscription) (payload : Payload)
    (st : PushState) : PushState × Option (List Settled) :=
  if subs.isEmpty then (st, none)
  else
    let (st1, rs) := sendBatchAux env payload subs st
    (st1, some rs)

/-- The state effect of one subscriber's delivery inside the batch
(attempt logged; deletion on a 410/404 rejection).  `sendBatchAux` on a
cons is definitionally one `batchStep` followed by the rest. -/
def batchStep (env : Env) (payload : Payload) (sub : Subscription) (st : PushState) :
    PushState :=
  let st1 : PushState := { st with log := st.log ++ [(sub.endpoint, payload)] }
  if isGoneOr404 (env.push sub.endpoint payload) then
    { st1 with store := (deleteOne st1.store sub.endpoint).1 }
  else st1

/-! ## Payload composition -/

/-- `location.split(',')[0]`. -/
def locationLabel (location : String) : String :=
  (splitComma location).headD ""

/-- The current-conditions notification (lines 291–304). -/
def currentNotification (env : Env) (location : String) (cur : HourData) : Payload :=
  { title := "â±ï¸ " ++ env.fmtTime cur.time ++ " Weather (" ++ locationLabel location ++ ")",
    body := cur.temp_c ++ "Â°C, " ++ cur.condition.text
      ++ "\nâ˜ï¸ Cloud Cover: " ++ cur.cloud ++ "%"
      ++ "\nâ˜” Rain chance: " ++ cur.chance_of_rain ++ "%"
      ++ "\nðŸŒ¬ï¸ Wind: " ++ cur.wind_kph ++ " kph " ++ cur.wind_dir
      ++ "\nâ˜€ï¸ UV Index: " ++ cur.uv ++ "%",
    icon := cur.condition.icon,
    data := some { type := "current_weather", location := location, time := cur.time } }

/-- The forecast notification (lines 307–320). -/
def forecastNotification (env : Env) (location : String) (nxt : HourData) : Payload :=
  { title := "ðŸ”® " ++ env.fmtTime nxt.time ++ " Forecast (" ++ locationLabel location ++ ")",
    body := "Expected: " ++ nxt.temp_c ++ "Â°C, " ++ nxt.condition.text
      ++ "\nâ˜ï¸ Cloud Cover: " ++ nxt.cloud ++ "%"
      ++ "\nâ˜” Rain chance: " ++ nxt.chance_of_rain ++ "%"
      ++ "\nðŸŒ¬ï¸ Wind: " ++ nxt.wind_kph ++ " kph " ++ nxt.wind_dir
      ++ "\nâ˜€ï¸ UV Index: " ++ nxt.uv ++ "%",
    icon := nxt.condition.icon,
    data := some { type := "forecast", location := location, time := nxt.time } }

/-- The generic failure payload of the scheduled cycle (lines 418–422). -/
def cycleFailurePayload (location : String) : Payload :=
  { title := "Weather Update Failed",
    body := "We couldn\x27t get the latest weather for " ++ locationLabel location,
    icon := "/icons/error.png" }

/-- The failure payload of the on-demand subscribe path (lines 227–231). -/
def subscribeFailurePayload (location : String) : Payload :=
  { title := "Weather Update Failed",
    body := "Couldn\x27t get latest weather for " ++ locationLabel location,
    icon := "/icons/error.png" }

/-- `sendLocationNotifications(location, currentHourData, nextHourData)`
(lines 276–332): queries the subscribers of the location once, sends the
current-conditions batch then the forecast batch to that list, then
bulk-updates `lastNotified`/`nextNotificationTime` for the location. -/
def sendLocationNotifications (env : Env) (now : DateTime) (location : String)
    (cur nxt : HourData) (st : PushState) : PushState :=
  let locationSubscribers := findByLocation st.store location
  if locationSubscribers.isEmpty then st
  else
    let st1 := (sendBatchNotifications env locationSubscribers
      (currentNotification env location cur) st).1
    let st2 := (sendBatchNotifications env locationSubscribers
      (forecastNotification env location nxt) st1).1
    { st2 with store := updateManyTimestamps st2.store location now }

/-- `sendWeatherUpdateForSubscription(subscription, location)`
(lines 209–233): fetches weather for the location, uses the current and
current+1 hour entries, and runs the location pipeline; on any failure
(fetch error or missing hour) it sends the single generic failure
notification to just this subscription and never rethrows. -/
def sendWeatherUpdateForSubscription (env : Env) (now : DateTime) (ep : String)
    (location : String) (st : PushState) : PushState :=
  match fetchWeatherData env location with
  | .ok hours =>
    match hours.get? now.hour, hours.get? ((now.hour + 1) % 24) with
    | some cur, some nxt => sendLocationNotifications env now location cur nxt st
    | _, _ => (sendNotification env st ep (subscribeFailurePayload location)).1
  | _ => (sendNotification env st ep (subscribeFailurePayload location)).1

/-! ## The subscribe endpoint -/

/-- The `location` field of the request body: a string, or anything
without a `.replace` method (absent, `null`, a number, ...). -/
inductive LocField where
  | str (s : String)
  | notAString
deriving DecidableEq, Repr

/-- Request body of `POST /api/subscribe`: `subscription?.endpoint`,
`subscription?.keys` (opaque credential blob), and `location`. -/
structure SubscribeBody where
  endpoint? : Option String
  keys? : Option String
  location : LocField
deriving DecidableEq, Repr

/-- HTTP response of the subscribe handler. -/
inductive SubscribeResponse where
  | created
  | badRequest
  | serverError
deriving DecidableEq, Repr

/-- JS falsiness of an optional string field (`undefined` or `""`). -/
def falsyOptStr : Option String → Bool
  | none => true
  | some s => s == ""

/-- The record written by the subscribe handler (lines 146–152):
spread of the client subscription plus fresh bookkeeping fields. -/
def buildSubDoc (ep keys normalizedLoc : String) (now : DateTime) : Subscription :=
  { endpoint := ep, keys := keys, createdAt := now, lastNotified := none,
    location := normalizedLoc,
    nextNotificationTime := calculateNextNotificationTime now }

/-- `POST /api/subscribe` (lines 135–168).  A missing/non-string
`location` throws a `TypeError` at `location.replace`, caught by the
outer handler as a 500, before the upsert runs.  After a successful
upsert the on-demand pipeline runs; it never throws, so the response is
201 regardless of its outcome. -/
def subscribeHandler (env : Env) (now : DateTime) (body : SubscribeBody)
    (st : PushState) : SubscribeResponse × PushState :=
  if falsyOptStr body.endpoint? || falsyOptStr body.keys? then (.badRequest, st)
  else
    match body.location with
    | .notAString => (.serverError, st)
    | .str location =>
      let ep := body.endpoint?.getD ""
      let keys := body.keys?.getD ""
      let normalizedLoc := normalizedLocation location
      let subDoc := buildSubDoc ep keys normalizedLoc now
      let st1 := { st with store := updateOneUpsert st.store subDoc }
      let st2 := sendWeatherUpdateForSubscription env now ep normalizedLoc st1
      (.created, st2)

/-! ## The scheduled cycle -/

/-- Grouping of `sendTwoHourWeatherUpdates` (lines 385–391): a `Map`
from location to its subscribers, iterated in first-insertion order. -/
def groupByLocation (subs : List Subscription) : List (String × List Subscription) :=
  ((subs.map (fun s => s.location)).eraseDups).map
    (fun loc => (loc, subs.filter (fun s => s.location == loc)))

/-- The per-location body of the cycle loop (lines 396–423): fetch, pick
the current and current+2 hour entries, run the location pipeline; the
`catch` turns any failure into one generic-failure batch to the group's
subscribers and the loop continues. -/
def processLocationGroup (env : Env) (now : DateTime) (st : PushState) :
    String × List Subscription → PushState
  | (location, subscribers) =>
    match fetchWeatherData env location with
    | .ok hours =>
      match hours.get? now.hour, hours.get? ((now.hour + 2) % 24) with
      | some cur, some nxt => sendLocationNotifications env now location cur nxt st
      | _, _ => (sendBatchNotifications env subscribers (cycleFailurePayload location) st).1
    | _ => (sendBatchNotifications env subscribers (cycleFailurePayload location) st).1

/-- The `for (const [location, subscribers] of locationsMap)` loop. -/
def processGroups (env : Env) (now : DateTime)
    (groups : List (String × List Subscription)) (st : PushState) : PushState :=
  groups.foldl (processLocationGroup env now) st

/-- `sendTwoHourWeatherUpdates()` (lines 374–428): one scheduled cycle. -/
def sendTwoHourWeatherUpdates (env : Env) (now : DateTime) (st : PushState) : PushState :=
  if st.store.isEmpty then st
  else processGroups env now (groupByLocation st.store) st

/-- The failure condition of one location group in the cycle: upstream
fetch failed (`TypeError` or HTTP error) or the current / current+2 hour
entry is missing. -/
def fetchFailsAt (env : Env) (location : String) (hour : Nat) : Bool :=
  match fetchWeatherData env location with
  | .ok hours => (hours.get? hour).isNone || (hours.get? ((hour + 2) % 24)).isNone
  | _ => true

/-! ## Concrete fixtures (used by witnesses and example theorems) -/

/-- 13:45:00.000 on day 0. -/
def demoTime : DateTime := ⟨0, 13, 45, 0, 0⟩

def demoSub1 : Subscription :=
  { endpoint := "ep1", keys := "k1", location := "Paris,Ile-de-France,France",
    createdAt := demoTime, lastNotified := none, nextNotificationTime := demoTime }

def demoSub2 : Subscription :=
  { endpoint := "ep2", keys := "k2", location := "Paris,Ile-de-France,France",
    createdAt := demoTime, lastNotified := none, nextNotificationTime := demoTime }

def demoSub3 : Subscription :=
  { endpoint := "ep3", keys := "k3", location := "Tokyo,Tokyo,Japan",
    createdAt := demoTime, lastNotified := none, nextNotificationTime := demoTime }

/-- A fresh upsert document targeting `demoSub1`'s endpoint. -/
def demoDoc : Subscription :=
  buildSubDoc "ep1" "k9" (normalizedLocation "Lyon, ARA , France") demoTime

/-- Transport where every delivery succeeds; upstream always fails. -/
def demoEnvOk : Env :=
  { push := fun _ _ => .ok, fmtTime := fun t => t, api := fun _ _ _ => .apiError }

/-- Transport where endpoint `ep1` is permanently gone (410) and every
other delivery succeeds; upstream always fails. -/
def demoEnvGone1 : Env :=
  { push := fun ep _ => if ep == "ep1" then .err 410 else .ok,
    fmtTime := fun t => t, api := fun _ _ _ => .apiError }

/-- Initial state holding the three demo subscriptions, empty trace. -/
def demoState3 : PushState := { store := [demoSub1, demoSub2, demoSub3], log := [] }

/-! ## Lemmas: the normalization scan -/

theorem isWs_comma_false : isWs ',' = false := by decide

theorem length_dropWhile_le (p : Char → Bool) :
    ∀ l : List Char, (l.dropWhile p).length ≤ l.length := by
  intro l
  induction l with
  | nil => simp
  | cons c rest ih =>
    rw [List.dropWhile_cons]
    split
    · exact Nat.le_succ_of_le ih
    · exact Nat.le_refl _

theorem dropWhile_dropWhile (p : Char → Bool) (l : List Char) :
    (l.dropWhile p).dropWhile p = l.dropWhile p := by
  induction l with
  | nil => simp
  | cons c rest ih =>
    rw [List.dropWhile_cons]
    split
    · exact ih
    · next h => rw [List.dropWhile_cons_of_neg h]

theorem replaceAux_nil (f : Nat) : replaceAux f [] = [] := by
  cases f <;> rfl

theorem replaceAux_cons_match {c : Char} {rest r : List Char} (f : Nat)
    (h : (c :: rest).dropWhile isWs = ',' :: r) :
    replaceAux (f + 1) (c :: rest) = ',' :: replaceAux f (r.dropWhile isWs) := by
  simp only [replaceAux, h]
  simp

/-- A positive `wsComma` test exhibits the comma. -/
theorem wsComma_exists {l : List Char} (h : wsComma l = true) :
    ∃ r, l.dropWhile isWs = ',' :: r := by
  unfold wsComma at h
  cases hd : l.dropWhile isWs with
  | nil => rw [hd] at h; exact absurd h (by simp)
  | cons d r =>
    rw [hd] at h
    simp only [decide_eq_true_eq] at h
    exact ⟨r, by rw [h]⟩

theorem replaceAux_cons_nomatch {c : Char} {rest : List Char} (f : Nat)
    (h : wsComma (c :: rest) = false) :
    replaceAux (f + 1) (c :: rest) = c :: replaceAux f rest := by
  unfold wsComma at h
  simp only [replaceAux]
  cases hd : (c :: rest).dropWhile isWs with
  | nil => rfl
  | cons d r =>
    rw [hd] at h
    simp only [h]
    simp only [decide_eq_false_iff_not] at h
    exact if_neg h

theorem match_tail_length {c : Char} {rest r : List Char}
    (h : (c :: rest).dropWhile isWs = ',' :: r) :
    (r.dropWhile isWs).length ≤ rest.length := by
  have h1 : (',' :: r).length ≤ (c :: rest).length := by
    rw [← h]; exact length_dropWhile_le _ _
  simp only [List.length_cons, Nat.succ_le_succ_iff] at h1
  exact Nat.le_trans (length_dropWhile_le _ _) h1

theorem replaceAux_eq_of_le :
    ∀ (f g : Nat) (l : List Char), l.length ≤ f → l.length ≤ g →
      replaceAux f l = replaceAux g l := by
  intro f
  induction f with
  | zero =>
    intro g l hf _
    have hl : l = [] := List.eq_nil_of_length_eq_zero (Nat.le_zero.mp hf)
    subst hl
    rw [replaceAux_nil, replaceAux_nil]
  | succ f ih =>
    intro g l hf hg
    cases l with
    | nil => rw [replaceAux_nil, replaceAux_nil]
    | cons c rest =>
      cases g with
      | zero => exact absurd hg (by simp)
      | succ g =>
        have hrest : rest.length ≤ f := Nat.succ_le_succ_iff.mp hf
        have hrest' : rest.length ≤ g := Nat.succ_le_succ_iff.mp hg
        cases hm : wsComma (c :: rest) with
        | true =>
          obtain ⟨r, hd⟩ := wsComma_exists hm
          rw [replaceAux_cons_match f hd, replaceAux_cons_match g hd]
          have hlen := match_tail_length hd
          rw [ih g _ (Nat.le_trans hlen hrest) (Nat.le_trans hlen hrest')]
        | false =>
          rw [replaceAux_cons_nomatch f hm, replaceAux_cons_nomatch g hm]
          rw [ih g rest hrest hrest']

theorem replaceWsComma_nil : replaceWsComma [] = [] := rfl

theorem replaceWsComma_cons_match {c : Char} {rest r : List Char}
    (h : (c :: rest).dropWhile isWs = ',' :: r) :
    replaceWsComma (c :: rest) = ',' :: replaceWsComma (r.dropWhile isWs) := by
  unfold replaceWsComma
  have hlen : (c :: rest).length = rest.length + 1 := by simp
  rw [hlen, replaceAux_cons_match rest.length h]
  have := match_tail_length h
  rw [replaceAux_eq_of_le rest.length (r.dropWhile isWs).length _ this (Nat.le_refl _)]

theorem replaceWsComma_cons_nomatch {c : Char} {rest : List Char}
    (h : wsComma (c :: rest) = false) :
    replaceWsComma (c :: rest) = c :: replaceWsComma rest := by
  unfold replaceWsComma
  have hlen : (c :: rest).length = rest.length + 1 := by simp
  rw [hlen, replaceAux_cons_nomatch rest.length h]

/-- The head of a whitespace-stripped list is not whitespace. -/
theorem head_dropWhile_not_ws {l : List Char} {c : Char} {t : List Char}
    (h : l.dropWhile isWs = c :: t) : isWs c = false := by
  have := List.head?_dropWhile_not isWs l
  rw [h] at this
  exact this

/-- The scan's output starts with a non-whitespace character whenever its
input does (the head is copied, or is the replacement comma). -/
theorem dropWhile_replaceWsComma_dropWhile (l : List Char) :
    (replaceWsComma (l.dropWhile isWs)).dropWhile isWs
      = replaceWsComma (l.dropWhile isWs) := by
  cases hm : l.dropWhile isWs with
  | nil => rw [replaceWsComma_nil]; rfl
  | cons c t =>
    have hws : isWs c = false := head_dropWhile_not_ws hm
    cases hc : wsComma (c :: t) with
    | true =>
      obtain ⟨r, hd⟩ := wsComma_exists hc
      rw [replaceWsComma_cons_match hd]
      rw [List.dropWhile_cons_of_neg (by simp [isWs_comma_false])]
    | false =>
      rw [replaceWsComma_cons_nomatch hc]
      rw [List.dropWhile_cons_of_neg (by simp [hws])]

theorem wsComma_cons_ws {c : Char} {l : List Char} (h : isWs c = true) :
    wsComma (c :: l) = wsComma l := by
  unfold wsComma
  rw [List.dropWhile_cons_of_pos h]

theorem wsComma_cons_not_ws {c : Char} {l : List Char} (h : isWs c = false) :
    wsComma (c :: l) = decide (c = ',') := by
  unfold wsComma
  rw [List.dropWhile_cons_of_neg (by simp [h])]

/-- The scan preserves whether the string starts (up to whitespace) with
a comma. -/
theorem wsComma_replaceWsComma (l : List Char) :
    wsComma (replaceWsComma l) = wsComma l := by
  have main : ∀ (n : Nat) (l : List Char), l.length ≤ n →
      wsComma (replaceWsComma l) = wsComma l := by
    intro n
    induction n with
    | zero =>
      intro l hl
      have : l = [] := List.eq_nil_of_length_eq_zero (Nat.le_zero.mp hl)
      subst this
      rw [replaceWsComma_nil]
    | succ n ih =>
      intro l hl
      cases l with
      | nil => rw [replaceWsComma_nil]
      | cons c rest =>
        have hrest : rest.length ≤ n := Nat.succ_le_succ_iff.mp hl
        cases hc : wsComma (c :: rest) with
        | true =>
          obtain ⟨r, hd⟩ := wsComma_exists hc
          rw [replaceWsComma_cons_match hd]
          rw [wsComma_cons_not_ws isWs_comma_false]
          simp
        | false =>
          rw [replaceWsComma_cons_nomatch hc]
          cases hws : isWs c with
          | true =>
            rw [wsComma_cons_ws hws]
            rw [ih rest hrest]
            rw [wsComma_cons_ws hws] at hc
            exact hc
          | false =>
            rw [wsComma_cons_not_ws hws]
            rw [wsComma_cons_not_ws hws] at hc
            exact hc
  exact main l.length l (Nat.le_refl _)

/-- Idempotency of the normalization scan on character lists. -/
theorem replaceWsComma_idem (l : List Char) :
    replaceWsComma (replaceWsComma l) = replaceWsComma l := by
  have main : ∀ (n : Nat) (l : List Char), l.length ≤ n →
      replaceWsComma (replaceWsComma l) = replaceWsComma l := by
    intro n
    induction n with
    | zero =>
      intro l hl
      have : l = [] := List.eq_nil_of_length_eq_zero (Nat.le_zero.mp hl)
      subst this
      rw [replaceWsComma_nil, replaceWsComma_nil]
    | succ n ih =>
      intro l hl
      cases l with
      | nil => rw [replaceWsComma_nil, replaceWsComma_nil]
      | cons c rest =>
        have hrest : rest.length ≤ n := Nat.succ_le_succ_iff.mp hl
        cases hc : wsComma (c :: rest) with
        | true =>
          obtain ⟨r, hd⟩ := wsComma_exists hc
          rw [replaceWsComma_cons_match hd]
          have hx : (',' :: replaceWsComma (r.dropWhile isWs)).dropWhile isWs
              = ',' :: replaceWsComma (r.dropWhile isWs) :=
            List.dropWhile_cons_of_neg (by simp [isWs_comma_false])
          rw [replaceWsComma_cons_match hx]
          rw [dropWhile_replaceWsComma_dropWhile r]
          have hlen : (r.dropWhile isWs).length ≤ n :=
            Nat.le_trans (match_tail_length hd) hrest
          rw [ih _ hlen]
        | false =>
          rw [replaceWsComma_cons_nomatch hc]
          have hc2 : wsComma (c :: replaceWsComma rest) = false := by
            cases hws : isWs c with
            | true =>
              rw [wsComma_cons_ws hws, wsComma_replaceWsComma rest]
              rw [wsComma_cons_ws hws] at hc
              exact hc
            | false =>
              rw [wsComma_cons_not_ws hws]
              rw [wsComma_cons_not_ws hws] at hc
              exact hc
          rw [replaceWsComma_cons_nomatch hc2]
          rw [ih rest hrest]
  exact main l.length l (Nat.le_refl _)

/-! ## Claims C1 and C2 -/

/-- Claim C1 (refuted; the code contradicts its own comment
`Round up to next even hour`): `calculateNextNotificationTime` adds
`2 - hours % 1 = 2` hours unconditionally, so at 13:45 it yields 15:00
rather than the 14:00 even-hour boundary the claim requires; in general
it returns `hours + 2` with sub-hour components zeroed, which is not
aligned to the 2-hour grid for odd hours. -/
theorem claim1_next_time_is_plus_two_not_boundary :
    calculateNextNotificationTime ⟨0, 13, 45, 0, 0⟩ = ⟨0, 15, 0, 0, 0⟩
    ∧ specNextIntervalBoundary ⟨0, 13, 45, 0, 0⟩ = ⟨0, 14, 0, 0, 0⟩
    ∧ calculateNextNotificationTime ⟨0, 13, 45, 0, 0⟩
        ≠ specNextIntervalBoundary ⟨0, 13, 45, 0, 0⟩
    ∧ ∀ now : DateTime, calculateNextNotificationTime now
        = ⟨now.day + (now.hour + 2) / 24, (now.hour + 2) % 24, 0, 0, 0⟩ := by
  refine ⟨rfl, rfl, by decide, ?_⟩
  intro now
  simp [calculateNextNotificationTime, Nat.mod_one]

/-- Claim C2 (confirmed): the normalization
`location.replace(/\s*,\s*/g, ',')` is idempotent on every string, and
maps `"A , B , C"` and `"A,B,C"` to the same key. -/
theorem claim2_normalization_idempotent :
    (∀ s : String, normalizedLocation (normalizedLocation s) = normalizedLocation s)
    ∧ normalizedLocation "A , B , C" = normalizedLocation "A,B,C" := by
  constructor
  · intro s
    unfold normalizedLocation
    rw [show (String.mk (replaceWsComma s.data)).data = replaceWsComma s.data from rfl]
    rw [replaceWsComma_idem]
  · decide

/-! ## Lemmas: the subscription store -/

theorem endpoints_nil : endpoints [] = [] := rfl

theorem endpoints_cons (s : Subscription) (rest : List Subscription) :
    endpoints (s :: rest) = s.endpoint :: endpoints rest := rfl

theorem updateOneUpsert_cons_pos {s : Subscription} (rest : List Subscription)
    {doc : Subscription} (h : s.endpoint = doc.endpoint) :
    updateOneUpsert (s :: rest) doc = doc :: rest := by
  simp only [updateOneUpsert]
  rw [if_pos (by simpa using h)]

theorem updateOneUpsert_cons_neg {s : Subscription} (rest : List Subscription)
    {doc : Subscription} (h : ¬ s.endpoint = doc.endpoint) :
    updateOneUpsert (s :: rest) doc = s :: updateOneUpsert rest doc := by
  simp only [updateOneUpsert]
  rw [if_neg (by simpa using h)]

theorem updateOneUpsert_length_of_mem {store : List Subscription} {doc : Subscription}
    (h : doc.endpoint ∈ endpoints store) :
    (updateOneUpsert store doc).length = store.length := by
  induction store with
  | nil => exact absurd h (by simp [endpoints])
  | cons s rest ih =>
    by_cases hb : s.endpoint = doc.endpoint
    · rw [updateOneUpsert_cons_pos rest hb]
      simp
    · have hmem : doc.endpoint ∈ endpoints rest := by
        rw [endpoints_cons, List.mem_cons] at h
        rcases h with h | h
        · exact absurd h.symm hb
        · exact h
      rw [updateOneUpsert_cons_neg rest hb]
      simp [ih hmem]

theorem findByEndpoint_updateOneUpsert (store : List Subscription) (doc : Subscription) :
    findByEndpoint (updateOneUpsert store doc) doc.endpoint = some doc := by
  induction store with
  | nil => simp [updateOneUpsert, findByEndpoint]
  | cons s rest ih =>
    by_cases hb : s.endpoint = doc.endpoint
    · rw [updateOneUpsert_cons_pos rest hb]
      simp [findByEndpoint]
    · rw [updateOneUpsert_cons_neg rest hb]
      unfold findByEndpoint at ih ⊢
      rw [List.find?_cons_of_neg _ (by simpa using hb)]
      exact ih

theorem mem_endpoints_updateOneUpsert {store : List Subscription} {doc : Subscription}
    {x : String} (h : x ∈ endpoints (updateOneUpsert store doc)) :
    x = doc.endpoint ∨ x ∈ endpoints store := by
  induction store with
  | nil =>
    simp only [updateOneUpsert, endpoints, List.map_cons, List.map_nil, List.mem_cons,
      List.not_mem_nil, or_false] at h
    exact Or.inl h
  | cons s rest ih =>
    by_cases hb : s.endpoint = doc.endpoint
    · rw [updateOneUpsert_cons_pos rest hb, endpoints_cons, List.mem_cons] at h
      rw [endpoints_cons, List.mem_cons]
      rcases h with h | h
      · exact Or.inl h
      · exact Or.inr (Or.inr h)
    · rw [updateOneUpsert_cons_neg rest hb, endpoints_cons, List.mem_cons] at h
      rw [endpoints_cons, List.mem_cons]
      rcases h with h | h
      · exact Or.inr (Or.inl h)
      · rcases ih h with h2 | h2
        · exact Or.inl h2
        · exact Or.inr (Or.inr h2)

theorem mem_of_mem_updateOneUpsert {store : List Subscription} {doc : Subscription}
    (hnodup : (endpoints store).Nodup) :
    ∀ r ∈ updateOneUpsert store doc, r = doc ∨ (r ∈ store ∧ ¬ r.endpoint = doc.endpoint) := by
  induction store with
  | nil =>
    intro r hr
    simp only [updateOneUpsert, List.mem_cons, List.not_mem_nil, or_false] at hr
    exact Or.inl hr
  | cons s rest ih =>
    intro r hr
    rw [endpoints_cons, List.nodup_cons] at hnodup
    by_cases hb : s.endpoint = doc.endpoint
    · rw [updateOneUpsert_cons_pos rest hb, List.mem_cons] at hr
      rcases hr with hr | hr
      · exact Or.inl hr
      · refine Or.inr ⟨List.mem_cons_of_mem _ hr, ?_⟩
        intro hre
        exact hnodup.1 (hb ▸ hre ▸ List.mem_map_of_mem (fun s => s.endpoint) hr)
    · rw [updateOneUpsert_cons_neg rest hb, List.mem_cons] at hr
      rcases hr with hr | hr
      · subst hr
        exact Or.inr ⟨List.mem_cons_self _ _, hb⟩
      · rcases ih hnodup.2 r hr with h2 | h2
        · exact Or.inl h2
        · exact Or.inr ⟨List.mem_cons_of_mem _ h2.1, h2.2⟩

theorem nodup_endpoints_updateOneUpsert {store : List Subscription} {doc : Subscription}
    (hnodup : (endpoints store).Nodup) :
    (endpoints (updateOneUpsert store doc)).Nodup := by
  induction store with
  | nil => simp [updateOneUpsert, endpoints]
  | cons s rest ih =>
    rw [endpoints_cons, List.nodup_cons] at hnodup
    by_cases hb : s.endpoint = doc.endpoint
    · rw [updateOneUpsert_cons_pos rest hb, endpoints_cons, List.nodup_cons]
      exact ⟨hb ▸ hnodup.1, hnodup.2⟩
    · rw [updateOneUpsert_cons_neg rest hb, endpoints_cons, List.nodup_cons]
      refine ⟨?_, ih hnodup.2⟩
      intro hmem
      rcases mem_endpoints_updateOneUpsert hmem with h | h
      · exact hb h
      · exact hnodup.1 h

theorem deleteOne_cons_pos {s : Subscription} (rest : List Subscription) {ep : String}
    (h : s.endpoint = ep) : deleteOne (s :: rest) ep = (rest, true) := by
  simp only [deleteOne]
  rw [if_pos (by simpa using h)]

theorem deleteOne_cons_neg {s : Subscription} (rest : List Subscription) {ep : String}
    (h : ¬ s.endpoint = ep) :
    deleteOne (s :: rest) ep = (s :: (deleteOne rest ep).1, (deleteOne rest ep).2) := by
  simp only [deleteOne]
  rw [if_neg (by simpa using h)]

theorem deleteOne_sublist (store : List Subscription) (ep : String) :
    (deleteOne store ep).1.Sublist store := by
  induction store with
  | nil => simp [deleteOne]
  | cons s rest ih =>
    by_cases hb : s.endpoint = ep
    · rw [deleteOne_cons_pos rest hb]
      exact List.sublist_cons_self s rest
    · rw [deleteOne_cons_neg rest hb]
      exact List.Sublist.cons₂ s ih

theorem nodup_endpoints_deleteOne {store : List Subscription} (ep : String)
    (hnodup : (endpoints store).Nodup) :
    (endpoints (deleteOne store ep).1).Nodup := by
  have hsub : List.Sublist (endpoints (deleteOne store ep).1) (endpoints store) :=
    (deleteOne_sublist store ep).map (fun s : Subscription => s.endpoint)
  exact hsub.nodup hnodup

theorem endpoints_updateManyTimestamps (store : List Subscription) (loc : String)
    (now : DateTime) :
    endpoints (updateManyTimestamps store loc now) = endpoints store := by
  unfold endpoints updateManyTimestamps
  rw [List.map_map]
  apply List.map_congr_left
  intro s _
  simp only [Function.comp_apply]
  split <;> rfl

/-! ## Claims C3 and C9 -/

/-- Claim C3 (confirmed): upserting a document whose endpoint is already
stored keeps the store size, makes the stored record for that endpoint
the new document, and touches no other record; and every store operation
(upsert, delete, the bulk timestamp update) preserves the
endpoint-uniqueness invariant. -/
theorem claim3_upsert_in_place_and_endpoints_unique
    (store store2 store3 store4 : List Subscription) (doc doc2 : Subscription)
    (ep loc : String) (now : DateTime)
    (hmem : doc.endpoint ∈ endpoints store)
    (hnodup : (endpoints store).Nodup)
    (h2 : (endpoints store2).Nodup)
    (h3 : (endpoints store3).Nodup)
    (h4 : (endpoints store4).Nodup) :
    (updateOneUpsert store doc).length = store.length
    ∧ findByEndpoint (updateOneUpsert store doc) doc.endpoint = some doc
    ∧ (∀ r ∈ updateOneUpsert store doc, r = doc ∨ (r ∈ store ∧ ¬ r.endpoint = doc.endpoint))
    ∧ (endpoints (updateOneUpsert store2 doc2)).Nodup
    ∧ (endpoints (deleteOne store3 ep).1).Nodup
    ∧ (endpoints (updateManyTimestamps store4 loc now)).Nodup :=
  ⟨updateOneUpsert_length_of_mem hmem,
   findByEndpoint_updateOneUpsert store doc,
   mem_of_mem_updateOneUpsert hnodup,
   nodup_endpoints_updateOneUpsert h2,
   nodup_endpoints_deleteOne ep h3,
   (endpoints_updateManyTimestamps store4 loc now) ▸ h4⟩

/-- Claim C9 (confirmed): the subscribe handler's upsert document
overwrites the whole record — `createdAt` is the request time,
`lastNotified` is reset to `null`, `nextNotificationTime` is recomputed
from the request time, and location/keys are the new values — and for an
endpoint that already has a record, the upsert installs exactly this
fresh document without changing the store size. -/
theorem claim9_resubscribe_overwrites_whole_record
    (store : List Subscription) (e k loc : String) (now : DateTime)
    (hmem : e ∈ endpoints store) :
    (updateOneUpsert store (buildSubDoc e k (normalizedLocation loc) now)).length
        = store.length
    ∧ findByEndpoint (updateOneUpsert store (buildSubDoc e k (normalizedLocation loc) now)) e
        = some (buildSubDoc e k (normalizedLocation loc) now)
    ∧ (buildSubDoc e k (normalizedLocation loc) now).createdAt = now
    ∧ (buildSubDoc e k (normalizedLocation loc) now).lastNotified = none
    ∧ (buildSubDoc e k (normalizedLocation loc) now).nextNotificationTime
        = calculateNextNotificationTime now
    ∧ (buildSubDoc e k (normalizedLocation loc) now).location = normalizedLocation loc
    ∧ (buildSubDoc e k (normalizedLocation loc) now).keys = k :=
  ⟨updateOneUpsert_length_of_mem hmem,
   findByEndpoint_updateOneUpsert store (buildSubDoc e k (normalizedLocation loc) now),
   rfl, rfl, rfl, rfl, rfl⟩

/-! ## Lemmas: the delivery pipeline -/

theorem sendBatchAux_cons (env : Env) (payload : Payload) (sub : Subscription)
    (rest : List Subscription) (st : PushState) :
    sendBatchAux env payload (sub :: rest) st =
      ((sendBatchAux env payload rest (batchStep env payload sub st)).1,
       settledOf (env.push sub.endpoint payload)
         :: (sendBatchAux env payload rest (batchStep env payload sub st)).2) := rfl

theorem batchStep_log (env : Env) (payload : Payload) (sub : Subscription)
    (st : PushState) :
    (batchStep env payload sub st).log = st.log ++ [(sub.endpoint, payload)] := by
  unfold batchStep
  split <;> rfl

theorem sendBatchAux_log (env : Env) (payload : Payload) :
    ∀ (subs : List Subscription) (st : PushState),
      (sendBatchAux env payload subs st).1.log
        = st.log ++ subs.map (fun s => (s.endpoint, payload)) := by
  intro subs
  induction subs with
  | nil => intro st; simp [sendBatchAux]
  | cons sub rest ih =>
    intro st
    rw [sendBatchAux_cons]
    simp only [ih, batchStep_log, List.map_cons, List.append_assoc, List.cons_append,
      List.nil_append]

theorem sendBatchAux_results (env : Env) (payload : Payload) :
    ∀ (subs : List Subscription) (st : PushState),
      (sendBatchAux env payload subs st).2
        = subs.map (fun s => settledOf (env.push s.endpoint payload)) := by
  intro subs
  induction subs with
  | nil => intro st; simp [sendBatchAux]
  | cons sub rest ih =>
    intro st
    rw [sendBatchAux_cons]
    simp only [ih, List.map_cons]

theorem deleteOne_eq_filter {store : List Subscription} {ep : String}
    (hnodup : (endpoints store).Nodup) :
    (deleteOne store ep).1 = store.filter (fun s => !(s.endpoint == ep)) := by
  induction store with
  | nil => rfl
  | cons s rest ih =>
    rw [endpoints_cons, List.nodup_cons] at hnodup
    by_cases hb : s.endpoint = ep
    · rw [deleteOne_cons_pos rest hb]
      rw [List.filter_cons_of_neg (by simp [hb])]
      symm
      rw [List.filter_eq_self]
      intro a ha
      have hne : a.endpoint ≠ ep := by
        intro hae
        apply hnodup.1
        rw [hb, ← hae]
        exact List.mem_map_of_mem (fun s : Subscription => s.endpoint) ha
      simp [hne]
    · rw [deleteOne_cons_neg rest hb, List.filter_cons_of_pos (by simp [hb])]
      rw [ih hnodup.2]

theorem nodup_endpoints_filter (p : Subscription → Bool) {store : List Subscription}
    (hnodup : (endpoints store).Nodup) :
    (endpoints (store.filter p)).Nodup := by
  have hsub : List.Sublist (endpoints (store.filter p)) (endpoints store) :=
    (List.filter_sublist store).map (fun s : Subscription => s.endpoint)
  exact hsub.nodup hnodup

theorem batchStep_store_gone (env : Env) (payload : Payload) (sub : Subscription)
    (st : PushState) (hnodup : (endpoints st.store).Nodup)
    (hg : isGoneOr404 (env.push sub.endpoint payload) = true) :
    (batchStep env payload sub st).store
      = st.store.filter (fun x => !(x.endpoint == sub.endpoint)) := by
  unfold batchStep
  rw [if_pos hg]
  exact deleteOne_eq_filter hnodup

theorem batchStep_store_ok (env : Env) (payload : Payload) (sub : Subscription)
    (st : PushState) (hg : isGoneOr404 (env.push sub.endpoint payload) = false) :
    (batchStep env payload sub st).store = st.store := by
  unfold batchStep
  rw [if_neg (by rw [hg]; exact Bool.false_ne_true)]

theorem sendBatchAux_store (env : Env) (payload : Payload) :
    ∀ (subs : List Subscription) (st : PushState), (endpoints st.store).Nodup →
      (sendBatchAux env payload subs st).1.store
        = st.store.filter (fun r =>
            !(subs.any (fun s => s.endpoint == r.endpoint)
              && isGoneOr404 (env.push r.endpoint payload))) := by
  intro subs
  induction subs with
  | nil =>
    intro st _
    simp [sendBatchAux]
  | cons sub rest ih =>
    intro st hnodup
    rw [sendBatchAux_cons]
    cases hg : isGoneOr404 (env.push sub.endpoint payload) with
    | true =>
      have hstep := batchStep_store_gone env payload sub st hnodup hg
      have hnodup2 : (endpoints (batchStep env payload sub st).store).Nodup := by
        rw [hstep]
        exact nodup_endpoints_filter _ hnodup
      rw [ih _ hnodup2, hstep, List.filter_filter]
      apply List.filter_congr
      intro x _
      by_cases hxe : x.endpoint = sub.endpoint
      · simp [hxe, hg]
      · have h1 : (sub.endpoint == x.endpoint) = false := by
          simp [beq_eq_false_iff_ne, Ne.symm hxe]
        have h2 : (x.endpoint == sub.endpoint) = false := by
          simp [beq_eq_false_iff_ne, hxe]
        simp [h1, h2]
    | false =>
      have hstep := batchStep_store_ok env payload sub st hg
      have hnodup2 : (endpoints (batchStep env payload sub st).store).Nodup := by
        rw [hstep]; exact hnodup
      rw [ih _ hnodup2, hstep]
      apply List.filter_congr
      intro x _
      by_cases hxe : x.endpoint = sub.endpoint
      · simp [hxe, hg]
      · have h1 : (sub.endpoint == x.endpoint) = false := by
          simp [beq_eq_false_iff_ne, Ne.symm hxe]
        simp [h1]

theorem sendNotification_store (env : Env) (st : PushState) (ep : String)
    (payload : Payload) :
    (sendNotification env st ep payload).1.store
      = if isGoneOr404 (env.push ep payload) then (deleteOne st.store ep).1
        else st.store := by
  unfold sendNotification attemptPush
  cases env.push ep payload with
  | ok => simp [isGoneOr404]
  | err c =>
    simp only [isGoneOr404]
    by_cases hc : (c == 410 || c == 404) = true
    · simp [hc]
    · have hc' : (c == 410 || c == 404) = false := by
        cases h : (c == 410 || c == 404)
        · rfl
        · exact absurd h hc
      simp [hc']

theorem sendBatchNotifications_store (env : Env) (subs : List Subscription)
    (payload : Payload) (st : PushState) (hnodup : (endpoints st.store).Nodup) :
    (sendBatchNotifications env subs payload st).1.store
      = st.store.filter (fun r =>
          !(subs.any (fun s => s.endpoint == r.endpoint)
            && isGoneOr404 (env.push r.endpoint payload))) := by
  cases subs with
  | nil =>
    simp [sendBatchNotifications]
  | cons sub rest =>
    unfold sendBatchNotifications
    simp only [List.isEmpty_cons, Bool.false_eq_true, if_false]
    exact sendBatchAux_store env payload (sub :: rest) st hnodup

theorem sendBatchNotifications_results (env : Env) (sub : Subscription)
    (rest : List Subscription) (payload : Payload) (st : PushState) :
    (sendBatchNotifications env (sub :: rest) payload st).2
      = some ((sub :: rest).map (fun s => settledOf (env.push s.endpoint payload))) := by
  unfold sendBatchNotifications
  simp only [List.isEmpty_cons, Bool.false_eq_true, if_false]
  rw [sendBatchAux_results]

theorem sendBatchNotifications_log (env : Env) (subs : List Subscription)
    (payload : Payload) (st : PushState) :
    (sendBatchNotifications env subs payload st).1.log
      = st.log ++ subs.map (fun s => (s.endpoint, payload)) := by
  cases subs with
  | nil => simp [sendBatchNotifications]
  | cons sub rest =>
    unfold sendBatchNotifications
    simp only [List.isEmpty_cons, Bool.false_eq_true, if_false]
    exact sendBatchAux_log env payload (sub :: rest) st

/-! ## Claims C4 and C5 -/

/-- Claim C4 (confirmed): a delivery deletes the target's record exactly
when the transport reports 410 (gone) or 404 (not found) — the returned
state already reflects the deletion — any other delivery error leaves the
record in place, and in a batch the surviving store is the original store
minus precisely the permanently-failed subscribers of that batch, so one
subscriber's failure never touches another's record. -/
theorem claim4_delete_iff_gone_or_not_found (env : Env) (st : PushState) (ep : String)
    (payload : Payload) (subs : List Subscription)
    (hnodup : (endpoints st.store).Nodup) :
    (∀ r, r ∈ (sendNotification env st ep payload).1.store
        ↔ (r ∈ st.store
           ∧ ¬(isGoneOr404 (env.push ep payload) = true ∧ r.endpoint = ep)))
    ∧ (sendBatchNotifications env subs payload st).1.store
        = st.store.filter (fun r =>
            !(subs.any (fun s => s.endpoint == r.endpoint)
              && isGoneOr404 (env.push r.endpoint payload))) := by
  constructor
  · intro r
    rw [sendNotification_store]
    cases hg : isGoneOr404 (env.push ep payload) with
    | false => simp
    | true =>
      rw [if_pos rfl]
      rw [deleteOne_eq_filter hnodup, List.mem_filter]
      constructor
      · rintro ⟨hr, hpr⟩
        refine ⟨hr, ?_⟩
        rintro ⟨-, hre⟩
        simp [hre] at hpr
      · rintro ⟨hr, hpr⟩
        refine ⟨hr, ?_⟩
        have hre : r.endpoint ≠ ep := fun h => hpr ⟨rfl, h⟩
        simp [hre]
  · exact sendBatchNotifications_store env subs payload st hnodup

/-- Witness for C4: concrete single delivery and batch against the
three-subscription store where only `ep1` is permanently gone. -/
theorem claim4_witness :
    (endpoints demoState3.store).Nodup
    ∧ (demoSub1 ∈ (sendNotification demoEnvGone1 demoState3 "ep1"
          (cycleFailurePayload "Paris") ).1.store
        ↔ (demoSub1 ∈ demoState3.store
           ∧ ¬(isGoneOr404 (demoEnvGone1.push "ep1" (cycleFailurePayload "Paris")) = true
               ∧ demoSub1.endpoint = "ep1")))
    ∧ (sendBatchNotifications demoEnvGone1 [demoSub1, demoSub2, demoSub3]
          (cycleFailurePayload "Paris") demoState3).1.store
        = demoState3.store.filter (fun r =>
            !([demoSub1, demoSub2, demoSub3].any (fun s => s.endpoint == r.endpoint)
              && isGoneOr404 (demoEnvGone1.push r.endpoint (cycleFailurePayload "Paris")))) :=
  ⟨by decide,
   (claim4_delete_iff_gone_or_not_found demoEnvGone1 demoState3 "ep1"
     (cycleFailurePayload "Paris") [demoSub1, demoSub2, demoSub3] (by decide)).1 demoSub1,
   (claim4_delete_iff_gone_or_not_found demoEnvGone1 demoState3 "ep1"
     (cycleFailurePayload "Paris") [demoSub1, demoSub2, demoSub3] (by decide)).2⟩

/-- Counterexample for C5 as stated: for the empty subscriber list the
function returns `undefined` (`none`), not an outcome set with zero
entries. -/
theorem claim5_counterexample_empty_batch :
    (sendBatchNotifications demoEnvOk [] (cycleFailurePayload "X") demoState3).2 = none
    ∧ (sendBatchNotifications demoEnvOk [] (cycleFailurePayload "X") demoState3).2
        ≠ some [] := by
  constructor
  · rfl
  · intro h
    cases h

/-- Claim C5 (amended: for every NON-EMPTY subscriber list): the batch
attempts delivery to each subscriber without short-circuiting and returns
one outcome per subscriber, positionally (`settledOf` of the transport's
answer); and in the concrete 3-subscriber batch where one endpoint is
permanently gone and two succeed, the outcome set has 3 entries and the
store retains the other 2 records. -/
theorem claim5_batch_outcome_per_subscriber (env : Env) (subs : List Subscription)
    (payload : Payload) (st : PushState) (hne : subs ≠ []) :
    (sendBatchNotifications env subs payload st).2
      = some (subs.map (fun s => settledOf (env.push s.endpoint payload)))
    ∧ (subs.map (fun s => settledOf (env.push s.endpoint payload))).length = subs.length
    ∧ (sendBatchNotifications demoEnvGone1 [demoSub1, demoSub2, demoSub3]
        (cycleFailurePayload "Paris") demoState3).2
      = some [Settled.rejected 410, Settled.fulfilled, Settled.fulfilled]
    ∧ (sendBatchNotifications demoEnvGone1 [demoSub1, demoSub2, demoSub3]
        (cycleFailurePayload "Paris") demoState3).1.store = [demoSub2, demoSub3] := by
  refine ⟨?_, List.length_map _ _, by decide, by decide⟩
  cases subs with
  | nil => exact absurd rfl hne
  | cons sub rest => exact sendBatchNotifications_results env sub rest payload st

/-- Witness for C5's amended theorem at a concrete non-empty batch. -/
theorem claim5_witness :
    ([demoSub1, demoSub2, demoSub3] ≠ ([] : List Subscription))
    ∧ (sendBatchNotifications demoEnvGone1 [demoSub1, demoSub2, demoSub3]
        (cycleFailurePayload "Paris") demoState3).2
      = some ([demoSub1, demoSub2, demoSub3].map
          (fun s => settledOf (demoEnvGone1.push s.endpoint (cycleFailurePayload "Paris")))) :=
  ⟨by decide,
   (claim5_batch_outcome_per_subscriber demoEnvGone1 [demoSub1, demoSub2, demoSub3]
     (cycleFailurePayload "Paris") demoState3 (by decide)).1⟩

/-- Witness for C3 at a concrete store and upsert document. -/
theorem claim3_witness :
    (demoDoc.endpoint ∈ endpoints [demoSub1, demoSub2]
    ∧ (endpoints [demoSub1, demoSub2]).Nodup
    ∧ (endpoints [demoSub3]).Nodup)
    ∧ ((updateOneUpsert [demoSub1, demoSub2] demoDoc).length = [demoSub1, demoSub2].length
    ∧ findByEndpoint (updateOneUpsert [demoSub1, demoSub2] demoDoc) demoDoc.endpoint
        = some demoDoc
    ∧ (endpoints (updateOneUpsert [demoSub3] demoSub1)).Nodup
    ∧ (endpoints (deleteOne [demoSub3] "ep1").1).Nodup
    ∧ (endpoints (updateManyTimestamps [demoSub3] "Paris" demoTime)).Nodup) := by
  have h := claim3_upsert_in_place_and_endpoints_unique [demoSub1, demoSub2]
    [demoSub3] [demoSub3] [demoSub3] demoDoc demoSub1 "ep1" "Paris" demoTime
    (by decide) (by decide) (by decide) (by decide) (by decide)
  exact ⟨⟨by decide, by decide, by decide⟩,
    h.1, h.2.1, h.2.2.2.1, h.2.2.2.2.1, h.2.2.2.2.2⟩

/-- Witness for C9 at a concrete store and re-subscribe request. -/
theorem claim9_witness :
    ("ep1" ∈ endpoints [demoSub1, demoSub2])
    ∧ ((updateOneUpsert [demoSub1, demoSub2]
          (buildSubDoc "ep1" "k9" (normalizedLocation "Lyon, ARA , France") demoTime)).length
        = [demoSub1, demoSub2].length
    ∧ findByEndpoint
        (updateOneUpsert [demoSub1, demoSub2]
          (buildSubDoc "ep1" "k9" (normalizedLocation "Lyon, ARA , France") demoTime)) "ep1"
        = some (buildSubDoc "ep1" "k9" (normalizedLocation "Lyon, ARA , France") demoTime)) := by
  have h := claim9_resubscribe_overwrites_whole_record [demoSub1, demoSub2]
    "ep1" "k9" "Lyon, ARA , France" demoTime (by decide)
  exact ⟨by decide, h.1, h.2.1⟩

/-! ## Lemmas: the scheduled cycle -/

theorem processLocationGroup_fail (env : Env) (now : DateTime) (st : PushState)
    {loc : String} (members : List Subscription)
    (hf : fetchFailsAt env loc now.hour = true) :
    processLocationGroup env now st (loc, members)
      = (sendBatchNotifications env members (cycleFailurePayload loc) st).1 := by
  unfold fetchFailsAt at hf
  simp only [processLocationGroup]
  split
  · next hours heq =>
    rw [heq] at hf
    simp only [Bool.or_eq_true, Option.isNone_iff_eq_none] at hf
    split
    · next cur nxt hcur hnxt =>
      rcases hf with hf | hf
      · rw [hcur] at hf; exact absurd hf (by simp)
      · rw [hnxt] at hf; exact absurd hf (by simp)
    · rfl
  · rfl

theorem processGroups_append (env : Env) (now : DateTime)
    (pre post : List (String × List Subscription)) (g : String × List Subscription)
    (st : PushState) :
    processGroups env now (pre ++ g :: post) st
      = processGroups env now post
          (processLocationGroup env now (processGroups env now pre st) g) := by
  unfold processGroups
  rw [List.foldl_append, List.foldl_cons]

/-! ## Claim C6 -/

/-- Claim C6 (confirmed): in a scheduled cycle, a location group whose
weather fetch fails (upstream error or missing hour entry) contributes
exactly one generic "Weather Update Failed" delivery attempt per
subscriber of that group (in order, as the trace extension shows), and
the cycle then continues with the remaining groups exactly as it would
process them — the failure never aborts the cycle. -/
theorem claim6_failing_group_notifies_and_continues (env : Env) (now : DateTime)
    (st : PushState) (pre post : List (String × List Subscription)) (loc : String)
    (members : List Subscription)
    (hf : fetchFailsAt env loc now.hour = true) :
    processGroups env now (pre ++ (loc, members) :: post) st
      = processGroups env now post
          ((sendBatchNotifications env members (cycleFailurePayload loc)
            (processGroups env now pre st)).1)
    ∧ (sendBatchNotifications env members (cycleFailurePayload loc)
        (processGroups env now pre st)).1.log
      = (processGroups env now pre st).log
        ++ members.map (fun m => (m.endpoint, cycleFailurePayload loc)) := by
  constructor
  · rw [processGroups_append]
    rw [processLocationGroup_fail env now _ members hf]
  · exact sendBatchNotifications_log env members (cycleFailurePayload loc)
      (processGroups env now pre st)

/-- Witness for C6: the Paris group fails (upstream always errors), its
two subscribers each get one failure attempt, and the Tokyo group is
still processed. -/
theorem claim6_witness :
    fetchFailsAt demoEnvGone1 "Paris,Ile-de-France,France" demoTime.hour = true
    ∧ (processGroups demoEnvGone1 demoTime
        ([] ++ ("Paris,Ile-de-France,France", [demoSub1, demoSub2])
          :: [("Tokyo,Tokyo,Japan", [demoSub3])]) demoState3
      = processGroups demoEnvGone1 demoTime [("Tokyo,Tokyo,Japan", [demoSub3])]
          ((sendBatchNotifications demoEnvGone1 [demoSub1, demoSub2]
            (cycleFailurePayload "Paris,Ile-de-France,France")
            (processGroups demoEnvGone1 demoTime [] demoState3)).1)
    ∧ (sendBatchNotifications demoEnvGone1 [demoSub1, demoSub2]
        (cycleFailurePayload "Paris,Ile-de-France,France")
        (processGroups demoEnvGone1 demoTime [] demoState3)).1.log
      = (processGroups demoEnvGone1 demoTime [] demoState3).log
        ++ [demoSub1, demoSub2].map
            (fun m => (m.endpoint, cycleFailurePayload "Paris,Ile-de-France,France"))) :=
  ⟨by decide,
   claim6_failing_group_notifies_and_continues demoEnvGone1 demoTime demoState3
     [] [("Tokyo,Tokyo,Japan", [demoSub3])] "Paris,Ile-de-France,France"
     [demoSub1, demoSub2] (by decide)⟩

/-! ## Claim C7 -/

/-- Claim C7 (refuted by the code; the claim matches the intent): for a
location with only one or two comma-separated parts,
`fetchWeatherData` throws a `TypeError` (calling `.trim()` on the
`undefined` `region`/`country` of the destructuring) before any upstream
request is issued — absent parts are NOT tolerated; only a location with
at least three parts reaches the upstream API, with each part trimmed. -/
theorem claim7_fetch_type_error_on_missing_parts (env : Env) :
    fetchWeatherData env "Paris" = FetchOutcome.typeError
    ∧ fetchWeatherData env "Paris,France" = FetchOutcome.typeError
    ∧ fetchWeatherData env " Paris , Ile-de-France , France "
        = (match env.api "Paris" "Ile-de-France" "France" with
           | .apiError => FetchOutcome.httpError
           | .apiOk hours => FetchOutcome.ok hours) := by
  refine ⟨rfl, rfl, ?_⟩
  rfl

/-! ## Claims C8 and C10 -/

/-- Claim C8 (confirmed): for a well-formed subscription (truthy endpoint
and keys) with a string location, the subscribe handler answers 201
`success: true` for EVERY environment — i.e. regardless of the outcome of
the weather fetch and of the push deliveries of the immediately-triggered
on-demand pipeline. -/
theorem claim8_subscribe_201_regardless_of_pipeline (env : Env) (now : DateTime)
    (st : PushState) (e k loc : String) (he : ¬ e = "") (hk : ¬ k = "") :
    (subscribeHandler env now ⟨some e, some k, .str loc⟩ st).1
      = SubscribeResponse.created := by
  simp [subscribeHandler, falsyOptStr, he, hk]

/-- Witness for C8: a concrete subscribe in an environment whose
upstream fetch fails and whose push delivery of the failure notification
is itself rejected with 410 — the response is still 201. -/
theorem claim8_witness :
    (¬ "ep1" = "" ∧ ¬ "k1" = "")
    ∧ (subscribeHandler demoEnvGone1 demoTime
        ⟨some "ep1", some "k1", .str "Paris, Ile-de-France, France"⟩ demoState3).1
      = SubscribeResponse.created :=
  ⟨⟨by decide, by decide⟩,
   claim8_subscribe_201_regardless_of_pipeline demoEnvGone1 demoTime demoState3
     "ep1" "k1" "Paris, Ile-de-France, France" (by decide) (by decide)⟩

/-- Claim C10 (confirmed): a well-formed subscription whose `location`
is absent or not a string makes the handler answer 500 (the `TypeError`
from `location.replace` is caught by the outer catch), and the state —
in particular the subscription store — is completely unchanged: the
error fires before the upsert. -/
theorem claim10_bad_location_500_store_unchanged (env : Env) (now : DateTime)
    (st : PushState) (e k : String) (he : ¬ e = "") (hk : ¬ k = "") :
    (subscribeHandler env now ⟨some e, some k, .notAString⟩ st).1
        = SubscribeResponse.serverError
    ∧ (subscribeHandler env now ⟨some e, some k, .notAString⟩ st).2 = st := by
  constructor <;> simp [subscribeHandler, falsyOptStr, he, hk]

/-- Witness for C10 at a concrete request and store. -/
theorem claim10_witness :
    (¬ "ep1" = "" ∧ ¬ "k1" = "")
    ∧ (subscribeHandler demoEnvOk demoTime
        ⟨some "ep1", some "k1", .notAString⟩ demoState3).1
      = SubscribeResponse.serverError
    ∧ (subscribeHandler demoEnvOk demoTime
        ⟨some "ep1", some "k1", .notAString⟩ demoState3).2 = demoState3 :=
  ⟨⟨by decide, by decide⟩,
   (claim10_bad_location_500_store_unchanged demoEnvOk demoTime demoState3
     "ep1" "k1" (by decide) (by decide)).1,
   (claim10_bad_location_500_store_unchanged demoEnvOk demoTime demoState3
     "ep1" "k1" (by decide) (by decide)).2⟩

end Weatherly
